import Mathlib

/-!
Verification of the PixelMatch similarity-search core.

Shallow embedding of the search/retrieval engine:
  * `backend/models/vector_db.py` — `FaceVectorDB` (FAISS flat / IVF index plus a
    metadata list), its mutations (`add_face`, `add_faces_batch`,
    `delete_by_photo`, `reset`) and `search_similar_faces`;
  * `backend/services/guest_service.py` — the multi-stage search of
    `search_photos_by_selfie` and `_group_matches_by_photo`;
  * `backend/services/ai_search_service.py` — the session registry
    (`create_session` / `get_session`).

Modelling conventions:
  * Python floats are embedded as exact rationals (`ℚ`); float literals such as
    `0.42` become the exact rationals they denote in source text.
  * `np.linalg.norm` is a real square root.  The embedding uses an exact
    rational square root (`ratSqrt`), which agrees with the source whenever the
    squared norm is a perfect rational square; every concrete vector used in a
    theorem below has a perfect-square squared norm, so on those inputs the
    embedding is exact.
  * The FAISS index object is represented by the list of vectors that have been
    added to it (`indexVecs`, so `index.ntotal = indexVecs.length`) together
    with its kind (flat, or IVF with a trained flag).  `IndexFlatIP.search` is
    modelled as the exact top-k inner-product scan returning hits in descending
    similarity order with ties broken by ascending index, which is the
    deterministic behaviour the spec ascribes to the exact index; theorems about
    `search` therefore carry the hypothesis that the index is flat (IVF probing
    is internal to the FAISS library, not repository code).
  * Python `dict`s preserve insertion order; they are embedded as association
    lists updated in place / appended at the end.  `list.sort(key, reverse=True)`
    is a stable descending sort; it is embedded as `List.insertionSort` with the
    relation `key y ≤ key x`, which is also stable, and any two stable sorts by
    the same key agree.
-/

/-- A face embedding vector: a finite sequence of (exact) reals. -/
abbrev Vec := List ℚ

/-- Squared Euclidean norm of a vector. -/
def norm2 (v : Vec) : ℚ := (v.map fun x => x * x).sum

/-- Exact rational square root: `some r` with `r * r = q` when `q` is a perfect
rational square (numerator and denominator both perfect squares), `none`
otherwise.  Stands in for the real square root of `np.linalg.norm`; exact on all
inputs used concretely below. -/
def ratSqrt (q : ℚ) : Option ℚ :=
  if q.num < 0 then none
  else
    let sn := Nat.sqrt q.num.toNat
    let sd := Nat.sqrt q.den
    if (sn * sn : ℤ) = q.num ∧ sd * sd = q.den then some ((sn : ℚ) / (sd : ℚ))
    else none

/-- `add_face` / query normalization (vector_db.py lines 139-143 and 286-290):
`norm = np.linalg.norm(v); if norm > 0: v = v / norm`. -/
def normalizeVec (v : Vec) : Vec :=
  match ratSqrt (norm2 v) with
  | some n => if 0 < n then v.map fun x => x / n else v
  | none => v

/-- Batch normalization (vector_db.py lines 195-198):
`norms = np.linalg.norm(...); arr = arr / (norms + 1e-7)` — note the epsilon in
the denominator and the absence of a zero guard. -/
def normalizeVecBatch (v : Vec) : Vec :=
  match ratSqrt (norm2 v) with
  | some n => v.map fun x => x / (n + 1 / 10000000)
  | none => v

/-- Inner product of two vectors (cosine similarity on normalized vectors). -/
def dotQ (u v : Vec) : ℚ := ((u.zip v).map fun p => p.1 * p.2).sum

/-- One metadata record, as built in `add_face` / `add_faces_batch`:
`{"photo_path": ..., "bbox_x": ..., "bbox_y": ..., "bbox_w": ..., "bbox_h": ...}`.
The optional extra metadata map is not inspected by any claim and is omitted. -/
structure FaceMeta where
  photoPath : String
  bboxX : Int
  bboxY : Int
  bboxW : Int
  bboxH : Int
deriving DecidableEq, Repr

/-- The kind of the FAISS index: `IndexFlatIP`, or `IndexIVFFlat` with its
training state. -/
inductive IndexKind where
  | flat : IndexKind
  | ivf : Bool → IndexKind
deriving DecidableEq, Repr

/-- State of `FaceVectorDB`: the FAISS index (kind plus the vectors added to
it; `index.ntotal = indexVecs.length`) and the `self.metadata` list.
`useIvf` is `self.use_ivf` (set to `True` in `__init__`). -/
structure FaceVectorDB where
  useIvf : Bool
  indexKind : IndexKind
  indexVecs : List Vec
  metadata : List FaceMeta
deriving DecidableEq, Repr

/-- A bounding box `(x, y, w, h)`. -/
abbrev BBox := Int × Int × Int × Int

/-- `FaceVectorDB.add_face`: normalize the embedding, append it to the index,
append the metadata record, return the new id `len(metadata) - 1` (the source
returns it as a string). -/
def addFace (db : FaceVectorDB) (embedding : Vec) (photoPath : String)
    (bbox : BBox) : ℕ × FaceVectorDB :=
  let e := normalizeVec embedding
  let meta : FaceMeta :=
    { photoPath := photoPath, bboxX := bbox.1, bboxY := bbox.2.1
      bboxW := bbox.2.2.1, bboxH := bbox.2.2.2 }
  let db' := { db with
    indexVecs := db.indexVecs ++ [e]
    metadata := db.metadata ++ [meta] }
  (db'.metadata.length - 1, db')

/-- `FaceVectorDB.add_faces_batch` (vector_db.py lines 173-263).
Batch-normalizes the embeddings; if `use_ivf` and the new total exceeds 1000
and the index is flat, replaces the index by a fresh IVF index trained on the
incoming batch only (the prior index contents are discarded — the source even
prints `existing ... embeddings will be lost`); appends the metadata records
built from `zip(photo_paths, bboxes)`; trains an untrained IVF index on the
batch; adds the batch to the index; returns `range(start_id, len(metadata))`
with `start_id = len(metadata) - len(embeddings)`. -/
def addFacesBatch (db : FaceVectorDB) (embeddings : List Vec)
    (photoPaths : List String) (bboxes : List BBox) :
    List ℕ × FaceVectorDB :=
  if embeddings = [] then ([], db)
  else
    let embNorm := embeddings.map normalizeVecBatch
    let currentSize := db.indexVecs.length
    let newSize := currentSize + embeddings.length
    let db1 :=
      if db.useIvf = true ∧ 1000 < newSize ∧ db.indexKind = IndexKind.flat then
        { db with indexKind := IndexKind.ivf true, indexVecs := [] }
      else db
    let newMeta := (photoPaths.zip bboxes).map fun pb =>
      ({ photoPath := pb.1, bboxX := pb.2.1, bboxY := pb.2.2.1
         bboxW := pb.2.2.2.1, bboxH := pb.2.2.2.2 } : FaceMeta)
    let db2 := { db1 with metadata := db1.metadata ++ newMeta }
    let db3 :=
      match db2.indexKind with
      | IndexKind.ivf false =>
          { db2 with indexKind := IndexKind.ivf true
                     indexVecs := db2.indexVecs ++ embNorm }
      | _ => { db2 with indexVecs := db2.indexVecs ++ embNorm }
    let startId := db3.metadata.length - embeddings.length
    (List.range' startId (db3.metadata.length - startId), db3)

/-- `FaceVectorDB.delete_by_photo` (vector_db.py lines 333-372): computes the
records that would be kept and the deleted count, but never assigns the
filtered list back — the returned state is the input state unchanged. -/
def deleteByPhoto (db : FaceVectorDB) (photoPath : String) : ℕ × FaceVectorDB :=
  let metadataToKeep := db.metadata.filter fun m => decide (m.photoPath ≠ photoPath)
  let deletedCount := db.metadata.length - metadataToKeep.length
  (deletedCount, db)

/-- `FaceVectorDB.reset`: fresh flat index, empty metadata. -/
def reset (db : FaceVectorDB) : Bool × FaceVectorDB :=
  (true, { db with indexKind := IndexKind.flat, indexVecs := [], metadata := [] })

/-- Similarity of the (already normalized) query against every stored vector,
paired with the vector's index position. -/
def simCandidates (q : Vec) (vecs : List Vec) : List (ℕ × ℚ) :=
  (List.range vecs.length).map fun i => (i, dotQ q (vecs.getD i []))

/-- Ranking relation of `IndexFlatIP.search` results: higher similarity first,
ties broken by ascending index position. -/
def rankLE (c d : ℕ × ℚ) : Prop := d.2 < c.2 ∨ (c.2 = d.2 ∧ c.1 ≤ d.1)

instance : DecidableRel rankLE := fun c d => by
  unfold rankLE; infer_instance

instance : IsTotal (ℕ × ℚ) rankLE where
  total a b := by
    unfold rankLE
    rcases lt_trichotomy a.2 b.2 with h | h | h
    · exact Or.inr (Or.inl h)
    · rcases Nat.le_total a.1 b.1 with h1 | h1
      · exact Or.inl (Or.inr ⟨h, h1⟩)
      · exact Or.inr (Or.inr ⟨h.symm, h1⟩)
    · exact Or.inl (Or.inl h)

instance : IsTrans (ℕ × ℚ) rankLE where
  trans a b c hab hbc := by
    unfold rankLE at *
    rcases hab with h1 | ⟨e1, l1⟩
    · rcases hbc with h2 | ⟨e2, l2⟩
      · exact Or.inl (lt_trans h2 h1)
      · exact Or.inl (e2 ▸ h1)
    · rcases hbc with h2 | ⟨e2, l2⟩
      · exact Or.inl (e1 ▸ h2)
      · exact Or.inr ⟨e1.trans e2, Nat.le_trans l1 l2⟩

/-- Modelled `IndexFlatIP.search(q, k)`: the `k` best candidates by inner
product, in descending similarity order with ties broken by ascending index. -/
def faissFlatSearch (vecs : List Vec) (q : Vec) (k : ℕ) : List (ℕ × ℚ) :=
  (List.insertionSort rankLE (simCandidates q vecs)).take k

/-- A search hit, as assembled in `search_similar_faces`: a copy of the
metadata record plus the reconstructed bbox, the similarity, and the id (the
index position, a string in the source).  `isExpanded` models the optional
`is_expanded` dict key set by the guest-service expand stage; absence of the
key is `false`. -/
structure SearchResult where
  photoPath : String
  bboxX : Int
  bboxY : Int
  bboxW : Int
  bboxH : Int
  similarity : ℚ
  id : ℕ
  isExpanded : Bool
deriving DecidableEq, Repr

/-- The loop body of `search_similar_faces`: keep a ranked candidate
`(idx, similarity)` when `similarity >= similarity_threshold` and
`idx < len(metadata)`, building the result record (metadata copy plus
reconstructed bbox, similarity and id). -/
def mkHit (db : FaceVectorDB) (similarityThreshold : ℚ) (c : ℕ × ℚ) :
    Option SearchResult :=
  match db.metadata.get? c.1 with
  | some m =>
      if similarityThreshold ≤ c.2 then
        some { photoPath := m.photoPath, bboxX := m.bboxX, bboxY := m.bboxY
               bboxW := m.bboxW, bboxH := m.bboxH, similarity := c.2
               id := c.1, isExpanded := false }
      else none
  | none => none

/-- `FaceVectorDB.search_similar_faces` (vector_db.py lines 265-319): empty
index yields `[]`; otherwise normalize the query, retrieve
`min(top_k, ntotal)` ranked candidates from the index, and keep each through
`mkHit`. -/
def searchSimilarFaces (db : FaceVectorDB) (queryEmbedding : Vec) (topK : ℕ)
    (similarityThreshold : ℚ) : List SearchResult :=
  if db.indexVecs.length = 0 then []
  else
    let q := normalizeVec queryEmbedding
    let ranked := faissFlatSearch db.indexVecs q (min topK db.indexVecs.length)
    ranked.filterMap (mkHit db similarityThreshold)

/-- Python `list.sort(key=..., reverse=True)`: stable descending sort by key,
embedded as insertion sort with the relation `key y ≤ key x` (stable, and any
two stable sorts by the same key agree). -/
def sortByKeyDesc {α β : Type} [LinearOrder β] (key : α → β) (l : List α) :
    List α :=
  List.insertionSort (fun x y => key y ≤ key x) l

/-- The multi-stage search of `GuestService.search_photos_by_selfie`
(guest_service.py lines 119-180), from the point where the query embedding is
available: a PRIMARY search at the caller threshold; if it returned anything
and fewer than 8 hits, an EXPAND search at `max(0.42, primary - 0.10)` whose
id-new results are flagged `is_expanded` and appended; if PRIMARY returned
nothing, a FALLBACK search at the fixed threshold `0.30` appended as-is; then
a stable descending sort by similarity. -/
def multiStageSearch (db : FaceVectorDB) (embedding : Vec) (maxResults : ℕ)
    (primaryThreshold : ℚ) : List SearchResult :=
  let matchesStage1 := searchSimilarFaces db embedding maxResults primaryThreshold
  let allMatches :=
    if matchesStage1 ≠ [] then
      let secondaryThreshold := max (42 / 100 : ℚ) (primaryThreshold - 10 / 100)
      if matchesStage1.length < 8 then
        let matchesStage2 :=
          searchSimilarFaces db embedding maxResults secondaryThreshold
        let existingIds := matchesStage1.map fun m => m.id
        let newMatches :=
          (matchesStage2.filter fun m => decide (m.id ∉ existingIds)).map
            fun m => { m with isExpanded := true }
        matchesStage1 ++ newMatches
      else matchesStage1
    else
      let fallbackThreshold : ℚ := 30 / 100
      matchesStage1 ++ searchSimilarFaces db embedding maxResults fallbackThreshold
  sortByKeyDesc (fun m => m.similarity) allMatches

/-- A face entry inside a photo group: `(bbox, similarity)`. -/
abbrev FaceEntry := BBox × ℚ

/-- The face entry contributed by one search hit. -/
def faceEntry (m : SearchResult) : FaceEntry :=
  ((m.bboxX, m.bboxY, m.bboxW, m.bboxH), m.similarity)

/-- Update of the insertion-ordered `photo_dict`: append the face to the entry
with this key if present, else append a new entry at the end (Python dict
semantics). -/
def addFaceToDict : List (String × List FaceEntry) → String → FaceEntry →
    List (String × List FaceEntry)
  | [], p, f => [(p, [f])]
  | e :: es, p, f =>
      if e.1 = p then (e.1, e.2 ++ [f]) :: es else e :: addFaceToDict es p f

/-- The `photo_dict` built by `_group_matches_by_photo`, keyed by photo path in
first-occurrence order, each entry collecting that photo's faces in hit
order. -/
def buildPhotoDict (hits : List SearchResult) : List (String × List FaceEntry) :=
  hits.foldl (fun acc m => addFaceToDict acc m.photoPath (faceEntry m)) []

/-- Running maximum of the similarities, starting from `0.0`
(`max_similarity` is initialized to `0.0` and updated by
`if sim > cur: cur = sim`). -/
def runningMax (faces : List FaceEntry) : ℚ :=
  faces.foldl (fun cur f => if cur < f.2 then f.2 else cur) 0

/-- `Path(photo_path).name`: the final path component. -/
def photoName (p : String) : String := (p.splitOn "/").getLastD p

/-- One aggregated per-photo match group. -/
structure PhotoGroup where
  photoPath : String
  name : String
  facesFound : List FaceEntry
  maxSimilarity : ℚ
  avgSimilarity : ℚ
  faceCount : ℕ
deriving DecidableEq, Repr

/-- The group record computed for one `photo_dict` entry. -/
def mkGroup (e : String × List FaceEntry) : PhotoGroup :=
  { photoPath := e.1
    name := photoName e.1
    facesFound := e.2
    maxSimilarity := runningMax e.2
    avgSimilarity := (e.2.map fun f => f.2).sum / ((e.2.length : ℚ))
    faceCount := e.2.length }

/-- `GuestService._group_matches_by_photo` (guest_service.py lines 212-257):
group the hits by photo path in an insertion-ordered dict, aggregate each
group (`max_similarity` as a running max from `0.0`, `avg_similarity` as
`sum / len`, `face_count` as `len`), then stable-sort the groups by
`max_similarity` descending. -/
def groupMatchesByPhoto (hits : List SearchResult) : List PhotoGroup :=
  sortByKeyDesc (fun g => g.maxSimilarity) ((buildPhotoDict hits).map mkGroup)

/-- First-occurrence deduplication of a list of keys (the key order of a
Python dict built by repeated insertion). -/
def firstOccurrences (ps : List String) : List String :=
  ps.foldl (fun ks p => if p ∈ ks then ks else ks ++ [p]) []

/-- One AI-search session (`ai_search_service.py create_session`): the data
stored under a session id.  Time is modelled in minutes. -/
structure SessionData where
  faceEmbedding : Vec
  selfieFilename : String
  createdAt : ℚ
  chatHistory : List String
deriving DecidableEq, Repr

/-- The in-memory `_sessions` registry. -/
abbrev SessionStore := List (String × SessionData)

/-- `AISearchService.create_session`: store the session under a fresh id with
the current timestamp (uuid generation is modelled by passing the fresh id). -/
def createSession (sessions : SessionStore) (sessionId : String)
    (faceEmbedding : Vec) (selfieFilename : String) (now : ℚ) :
    String × SessionStore :=
  (sessionId,
   sessions ++ [(sessionId,
     { faceEmbedding := faceEmbedding, selfieFilename := selfieFilename
       createdAt := now, chatHistory := [] })])

/-- `AISearchService.get_session` (ai_search_service.py lines 75-87): look the
id up; if found and `now - created_at > timeout` delete the entry and report
expiry (`None`); if found and fresh return it; if absent return `None`.
Returns the result together with the updated registry. -/
def getSession (sessions : SessionStore) (sessionId : String) (now : ℚ)
    (timeoutMinutes : ℚ) : Option SessionData × SessionStore :=
  match sessions.lookup sessionId with
  | some s =>
      if timeoutMinutes < now - s.createdAt then
        (none, sessions.filter fun e => decide (e.1 ≠ sessionId))
      else (some s, sessions)
  | none => (none, sessions)

/-! ### Concrete states used in closed theorems and witnesses -/

/-- A metadata record for photo `p0.jpg`. -/
def meta0 : FaceMeta :=
  { photoPath := "p0.jpg", bboxX := 0, bboxY := 0, bboxW := 10, bboxH := 10 }

/-- A metadata record for photo `a.jpg`. -/
def metaA : FaceMeta :=
  { photoPath := "a.jpg", bboxX := 0, bboxY := 0, bboxW := 10, bboxH := 10 }

/-- A metadata record for photo `b.jpg`. -/
def metaB : FaceMeta :=
  { photoPath := "b.jpg", bboxX := 1, bboxY := 1, bboxW := 20, bboxH := 20 }

/-- A flat-index database holding 1000 embeddings with matching metadata —
the state just below the IVF upgrade threshold. -/
def dbFlat1000 : FaceVectorDB :=
  { useIvf := true, indexKind := IndexKind.flat
    indexVecs := List.replicate 1000 [(1 : ℚ), 0]
    metadata := List.replicate 1000 meta0 }

/-- A flat-index database holding one face of photo `a.jpg`. -/
def dbA : FaceVectorDB :=
  { useIvf := true, indexKind := IndexKind.flat
    indexVecs := [[(1 : ℚ), 0]], metadata := [metaA] }

/-- A flat-index database holding one face of `a.jpg` and one of `b.jpg`,
with orthogonal unit embeddings. -/
def dbAB : FaceVectorDB :=
  { useIvf := true, indexKind := IndexKind.flat
    indexVecs := [[(1 : ℚ), 0], [(3 : ℚ) / 5, 4 / 5]], metadata := [metaA, metaB] }

/-- A flat-index database whose second stored vector has similarity `-1`
against the query `[1, 0]`. -/
def dbNeg : FaceVectorDB :=
  { useIvf := true, indexKind := IndexKind.flat
    indexVecs := [[(1 : ℚ), 0], [(-1 : ℚ), 0]], metadata := [metaA, metaB] }

/-- A session created at time 0. -/
def sess0 : SessionData :=
  { faceEmbedding := [1, 0], selfieFilename := "s.jpg", createdAt := 0
    chatHistory := [] }

/-- A session registry holding `sess0` under id `sid`. -/
def store0 : SessionStore := [("sid", sess0)]

/-- A hit of photo `b.jpg` with similarity `-1/2` (listed first). -/
def hitB : SearchResult :=
  { photoPath := "b.jpg", bboxX := 1, bboxY := 1, bboxW := 20, bboxH := 20
    similarity := -(1 / 2), id := 0, isExpanded := false }

/-- A hit of photo `a.jpg` with similarity `-1/2` (listed second). -/
def hitA : SearchResult :=
  { photoPath := "a.jpg", bboxX := 0, bboxY := 0, bboxW := 10, bboxH := 10
    similarity := -(1 / 2), id := 1, isExpanded := false }

/-! ## Theorems -/

/-- In a list, the number of elements dropped by keeping the complement of a
predicate equals the number of elements satisfying it. -/
theorem length_sub_length_filter_not {α : Type} (p : α → Bool) (l : List α) :
    l.length - (l.filter fun a => !(p a)).length = (l.filter p).length := by
  induction l with
  | nil => rfl
  | cons a t ih =>
    have hle : (t.filter fun a => !(p a)).length ≤ t.length :=
      List.length_filter_le _ _
    cases hpa : p a <;> simp [List.filter_cons, hpa] <;> omega

/-- Claim C10: `delete_by_photo(p)` returns the number of stored metadata
records whose photo path equals `p`, and leaves the database state (index and
metadata alike) entirely unchanged — the filtered metadata is computed but
discarded. -/
theorem deleteByPhoto_count_and_frame (db : FaceVectorDB) (p : String) :
    deleteByPhoto db p =
      ((db.metadata.filter fun m => decide (m.photoPath = p)).length, db) := by
  unfold deleteByPhoto
  have h : (db.metadata.filter fun m => decide (m.photoPath ≠ p)) =
      db.metadata.filter fun m => !(decide (m.photoPath = p)) := by
    simp only [ne_eq, decide_not]
  simp only [Prod.mk.injEq]
  refine ⟨?_, trivial⟩
  rw [h]
  exact length_sub_length_filter_not _ _

/-- Claim C3 (failing input): on a database holding one face of `a.jpg`,
`delete_by_photo "a.jpg"` reports one deletion but leaves the state unchanged,
and a subsequent search (same vector, `k = 10`, threshold `0.6`) still returns
a hit owned by `a.jpg` — the deleted photo remains retrievable. -/
theorem search_after_deleteByPhoto_returns_deleted_photo :
    (deleteByPhoto dbA "a.jpg").1 = 1 ∧
    (deleteByPhoto dbA "a.jpg").2 = dbA ∧
    ((searchSimilarFaces (deleteByPhoto dbA "a.jpg").2 [1, 0] 10 (3 / 5)).map
      fun r => r.photoPath) = ["a.jpg"] := by
    refine ⟨by norm_num [deleteByPhoto, dbA, metaA], rfl, ?_⟩
    have h2 : (deleteByPhoto dbA "a.jpg").2 = dbA := rfl
    rw [h2]
    norm_num [searchSimilarFaces, mkHit, dbA, metaA, faissFlatSearch, simCandidates,
      normalizeVec, norm2, ratSqrt, Nat.sqrt, dotQ, rankLE, List.insertionSort,
      List.orderedInsert, List.filterMap_cons, List.getElem?_cons_zero,
      List.getElem?_cons_succ]

/-- Claim C1: whenever a batch insert into a flat index crosses the 1000-record
threshold (with a nonempty prior index), the flat-to-IVF upgrade replaces the
index by one trained on — and containing — only the incoming batch: every
previously inserted vector is discarded instead of being rebuilt from the full
stored corpus. -/
theorem addFacesBatch_upgrade_discards (db : FaceVectorDB) (embeddings : List Vec)
    (photoPaths : List String) (bboxes : List BBox)
    (hne : embeddings ≠ [])
    (hivf : db.useIvf = true)
    (hflat : db.indexKind = IndexKind.flat)
    (hsize : 1000 < db.indexVecs.length + embeddings.length) :
    (addFacesBatch db embeddings photoPaths bboxes).2.indexVecs =
      embeddings.map normalizeVecBatch := by
  unfold addFacesBatch
  rw [if_neg hne]
  simp only [if_pos (And.intro hivf (And.intro hsize hflat))]
  simp

/-- Witness for C1: the concrete upgrade event — 1000 stored vectors, a batch
of one — leaves the index holding exactly the (batch-normalized) new
embedding. -/
theorem addFacesBatch_upgrade_discards_witness :
    dbFlat1000.indexVecs.length = 1000 ∧
    (addFacesBatch dbFlat1000 [[(0 : ℚ), 1]] ["new.jpg"] [(0, 0, 10, 10)]).2.indexVecs =
      [normalizeVecBatch [(0 : ℚ), 1]] := by
  have hlen : dbFlat1000.indexVecs.length = 1000 := by
    show (List.replicate 1000 [(1 : ℚ), 0]).length = 1000
    rw [List.length_replicate]
  refine ⟨hlen, ?_⟩
  have h := addFacesBatch_upgrade_discards dbFlat1000 [[(0 : ℚ), 1]] ["new.jpg"]
    [(0, 0, 10, 10)] (by simp) rfl rfl (by rw [hlen]; norm_num)
  simpa using h

/-- Claim C2: the upgrade event of `addFacesBatch_upgrade_discards` breaks the
`index.count == EmbeddingStore.count` invariant — after the call the index
holds only the batch while the metadata store holds all prior records plus the
batch. -/
theorem addFacesBatch_upgrade_breaks_count_invariant (db : FaceVectorDB)
    (embeddings : List Vec) (photoPaths : List String) (bboxes : List BBox)
    (hne : embeddings ≠ [])
    (hivf : db.useIvf = true)
    (hflat : db.indexKind = IndexKind.flat)
    (hsize : 1000 < db.indexVecs.length + embeddings.length)
    (hp : photoPaths.length = embeddings.length)
    (hb : bboxes.length = embeddings.length) :
    (addFacesBatch db embeddings photoPaths bboxes).2.indexVecs.length =
      embeddings.length ∧
    (addFacesBatch db embeddings photoPaths bboxes).2.metadata.length =
      db.metadata.length + embeddings.length := by
  constructor
  · rw [addFacesBatch_upgrade_discards db embeddings photoPaths bboxes hne hivf
      hflat hsize]
    exact List.length_map _ _
  · unfold addFacesBatch
    rw [if_neg hne]
    simp only [if_pos (And.intro hivf (And.intro hsize hflat))]
    simp [hp, hb]

/-- Witness for C2: at the concrete upgrade event (1000 stored vectors plus a
batch of one) the index count becomes 1 while the store count becomes 1001. -/
theorem addFacesBatch_upgrade_breaks_count_invariant_witness :
    dbFlat1000.indexVecs.length = dbFlat1000.metadata.length ∧
    (addFacesBatch dbFlat1000 [[(0 : ℚ), 1]] ["new.jpg"] [(0, 0, 10, 10)]).2.indexVecs.length = 1 ∧
    (addFacesBatch dbFlat1000 [[(0 : ℚ), 1]] ["new.jpg"] [(0, 0, 10, 10)]).2.metadata.length = 1001 := by
  have hlen : dbFlat1000.indexVecs.length = 1000 := by
    show (List.replicate 1000 [(1 : ℚ), 0]).length = 1000
    rw [List.length_replicate]
  have hmlen : dbFlat1000.metadata.length = 1000 := by
    show (List.replicate 1000 meta0).length = 1000
    rw [List.length_replicate]
  have h := addFacesBatch_upgrade_breaks_count_invariant dbFlat1000
    [[(0 : ℚ), 1]] ["new.jpg"] [(0, 0, 10, 10)] (by simp) rfl rfl
    (by rw [hlen]; norm_num) rfl rfl
  refine ⟨by rw [hlen, hmlen], by simpa using h.1, ?_⟩
  rw [h.2, hmlen]
  norm_num

/-- Looking up a key in an association list from which every pair with that
key has been filtered out yields nothing. -/
theorem lookup_filter_ne {β : Type} (l : List (String × β)) (k : String) :
    (l.filter fun e => decide (e.1 ≠ k)).lookup k = none := by
  induction l with
  | nil => rfl
  | cons e t ih =>
    rcases e with ⟨a, b⟩
    by_cases h : a = k
    · have hf : (((a, b) :: t).filter fun e => decide (e.1 ≠ k)) =
          t.filter fun e => decide (e.1 ≠ k) := by
        simp [List.filter_cons, h]
      rw [hf, ih]
    · have hf : (((a, b) :: t).filter fun e => decide (e.1 ≠ k)) =
          (a, b) :: t.filter fun e => decide (e.1 ≠ k) := by
        simp [List.filter_cons, h]
      rw [hf]
      have hbeq : (k == a) = false := beq_eq_false_iff_ne.2 (Ne.symm h)
      simp only [List.lookup, hbeq]
      exact ih

/-- Claim C8: on access, `get_session` deletes the session and reports expiry
(returns `None`) when the time since creation exceeds the idle timeout — and
any later lookup of the same id, at any time, again reports expiry rather than
crashing; otherwise it returns the session and leaves the registry
unchanged. -/
theorem getSession_expiry_spec (sessions : SessionStore) (sid : String)
    (now timeoutMinutes : ℚ) (s : SessionData)
    (hs : sessions.lookup sid = some s) :
    (timeoutMinutes < now - s.createdAt →
      getSession sessions sid now timeoutMinutes =
        (none, sessions.filter fun e => decide (e.1 ≠ sid)) ∧
      ∀ now2 timeout2,
        (getSession (getSession sessions sid now timeoutMinutes).2 sid now2 timeout2).1 =
          none) ∧
    (¬ timeoutMinutes < now - s.createdAt →
      getSession sessions sid now timeoutMinutes = (some s, sessions)) := by
  constructor
  · intro h
    have h1 : getSession sessions sid now timeoutMinutes =
        (none, sessions.filter fun e => decide (e.1 ≠ sid)) := by
      unfold getSession
      rw [hs]
      simp [h]
    refine ⟨h1, fun now2 timeout2 => ?_⟩
    rw [h1]
    unfold getSession
    rw [lookup_filter_ne]
  · intro h
    unfold getSession
    rw [hs]
    simp [h]

/-- Witness for C8: a session created at time 0 with a 30-minute timeout,
accessed at time 31, reports expiry; a second access at time 99 also reports
expiry. -/
theorem getSession_expiry_spec_witness :
    (getSession store0 "sid" 31 30).1 = none ∧
    (getSession (getSession store0 "sid" 31 30).2 "sid" 99 30).1 = none := by
  have h := (getSession_expiry_spec store0 "sid" 31 30 sess0 (by rfl)).1
    (by norm_num [sess0])
  exact ⟨by rw [h.1], h.2 99 30⟩

/-- Every hit kept by the search loop body records the candidate's index
position and similarity, meets the threshold, copies an existing metadata
record, and carries no expanded flag. -/
theorem mkHit_eq_some {db : FaceVectorDB} {t : ℚ} {c : ℕ × ℚ}
    {r : SearchResult} (h : mkHit db t c = some r) :
    r.id = c.1 ∧ r.similarity = c.2 ∧ r.isExpanded = false ∧ t ≤ c.2 ∧
      ∃ m, db.metadata.get? c.1 = some m ∧ r.photoPath = m.photoPath := by
  unfold mkHit at h
  split at h
  · next m hm =>
      split at h
      · next ht =>
          cases h
          exact ⟨rfl, rfl, rfl, ht, m, hm, rfl⟩
      · exact absurd h (by simp)
  · exact absurd h (by simp)

/-- Search results carry no expanded flag and meet the threshold. -/
theorem mem_searchSimilarFaces {db : FaceVectorDB} {q : Vec} {k : ℕ} {t : ℚ}
    {r : SearchResult} (hr : r ∈ searchSimilarFaces db q k t) :
    r.isExpanded = false ∧ t ≤ r.similarity := by
  unfold searchSimilarFaces at hr
  split at hr
  · cases hr
  · obtain ⟨c, _, hc⟩ := List.mem_filterMap.1 hr
    obtain ⟨_, hsim, hexp, hth, _⟩ := mkHit_eq_some hc
    exact ⟨hexp, by rw [hsim]; exact hth⟩

/-- Claim C5 (counterexample): with one stored face of `a.jpg` (vector
`[1,0]`), query `[3/5,4/5]` and primary threshold `0.65`, the PRIMARY stage
returns zero results, the FALLBACK stage returns the `a.jpg` hit at
similarity `0.6` — and that result does NOT carry the expanded flag, contrary
to the claim that every fallback result is flagged `expanded=true`. -/
theorem fallback_result_not_flagged_cex :
    searchSimilarFaces dbA [3 / 5, 4 / 5] 10 (13 / 20) = [] ∧
    (multiStageSearch dbA [3 / 5, 4 / 5] 10 (13 / 20)).map
      (fun r => (r.similarity, r.isExpanded)) = [(3 / 5, false)] := by
  constructor <;>
    norm_num [multiStageSearch, searchSimilarFaces, mkHit, dbA, metaA,
      faissFlatSearch, simCandidates, normalizeVec, norm2, ratSqrt, Nat.sqrt,
      dotQ, rankLE, List.insertionSort, List.orderedInsert, sortByKeyDesc,
      List.filterMap_cons, List.getElem?_cons_zero, List.getElem?_cons_succ]

/-- Claim C5 (amended): whenever the PRIMARY stage returns zero results, the
FALLBACK stage runs a single search at the fixed threshold `0.30` and its
results are merged as-is — but no result carries the expanded flag
(`is_expanded` is never set on the fallback path). -/
theorem fallback_runs_fixed_threshold_unflagged (db : FaceVectorDB) (q : Vec)
    (k : ℕ) (t : ℚ) (h : searchSimilarFaces db q k t = []) :
    multiStageSearch db q k t =
      sortByKeyDesc (fun m => m.similarity)
        (searchSimilarFaces db q k (30 / 100)) ∧
    ∀ r ∈ multiStageSearch db q k t, r.isExpanded = false := by
  have h1 : multiStageSearch db q k t =
      sortByKeyDesc (fun m => m.similarity)
        (searchSimilarFaces db q k (30 / 100)) := by
    unfold multiStageSearch
    rw [h]
    simp
  refine ⟨h1, fun r hr => ?_⟩
  rw [h1] at hr
  have hr' : r ∈ searchSimilarFaces db q k (30 / 100) :=
    (List.mem_insertionSort _).1 hr
  exact (mem_searchSimilarFaces hr').1

/-- Witness for the amended C5, at the concrete fallback scenario of
`fallback_result_not_flagged_cex`. -/
theorem fallback_runs_fixed_threshold_unflagged_witness :
    multiStageSearch dbA [3 / 5, 4 / 5] 10 (13 / 20) =
      sortByKeyDesc (fun m => m.similarity)
        (searchSimilarFaces dbA [3 / 5, 4 / 5] 10 (30 / 100)) ∧
    ∀ r ∈ multiStageSearch dbA [3 / 5, 4 / 5] 10 (13 / 20), r.isExpanded = false :=
  fallback_runs_fixed_threshold_unflagged dbA [3 / 5, 4 / 5] 10 (13 / 20)
    (by norm_num [searchSimilarFaces, mkHit, dbA, metaA, faissFlatSearch,
      simCandidates, normalizeVec, norm2, ratSqrt, Nat.sqrt, dotQ, rankLE,
      List.insertionSort, List.orderedInsert, List.filterMap_cons,
      List.getElem?_cons_zero, List.getElem?_cons_succ])

/-- The index positions of the similarity candidates are `0, …, n-1`. -/
theorem simCandidates_map_fst (q : Vec) (vecs : List Vec) :
    (simCandidates q vecs).map Prod.fst = List.range vecs.length := by
  unfold simCandidates
  rw [List.map_map]
  exact List.map_id _

/-- Characterization of the similarity candidates. -/
theorem mem_simCandidates {q : Vec} {vecs : List Vec} {c : ℕ × ℚ} :
    c ∈ simCandidates q vecs ↔
      c.1 < vecs.length ∧ c.2 = dotQ q (vecs.getD c.1 []) := by
  unfold simCandidates
  constructor
  · intro h
    obtain ⟨i, hi, rfl⟩ := List.mem_map.1 h
    exact ⟨List.mem_range.1 hi, rfl⟩
  · rcases c with ⟨i, s⟩
    rintro ⟨h1, h2⟩
    dsimp only at h1 h2
    exact List.mem_map.2 ⟨i, List.mem_range.2 h1, by rw [h2]⟩

/-- The ranked candidate list returned by the modelled FAISS search is sorted
by the ranking relation. -/
theorem faissFlatSearch_sorted (vecs : List Vec) (q : Vec) (k : ℕ) :
    (faissFlatSearch vecs q k).Pairwise rankLE := by
  unfold faissFlatSearch
  exact (List.sorted_insertionSort rankLE (simCandidates q vecs)).sublist
    (List.take_sublist _ _)

/-- Every ranked candidate is a similarity candidate. -/
theorem mem_faissFlatSearch {vecs : List Vec} {q : Vec} {k : ℕ} {c : ℕ × ℚ}
    (h : c ∈ faissFlatSearch vecs q k) : c ∈ simCandidates q vecs :=
  (List.mem_insertionSort rankLE).1 ((List.take_sublist _ _).mem h)

/-- The ranked candidates carry pairwise-distinct index positions. -/
theorem faissFlatSearch_pairwise_ne (vecs : List Vec) (q : Vec) (k : ℕ) :
    (faissFlatSearch vecs q k).Pairwise fun c d => c.1 ≠ d.1 := by
  have hperm : (List.insertionSort rankLE (simCandidates q vecs)).Perm
      (simCandidates q vecs) := List.perm_insertionSort _ _
  have hnd : ((List.insertionSort rankLE (simCandidates q vecs)).map Prod.fst).Nodup := by
    rw [(hperm.map Prod.fst).nodup_iff, simCandidates_map_fst]
    exact List.nodup_range _
  have hp : (List.insertionSort rankLE (simCandidates q vecs)).Pairwise
      fun c d => c.1 ≠ d.1 := List.pairwise_map.1 hnd
  exact hp.sublist (List.take_sublist _ _)

/-- The ranked candidate list has length `min k n`. -/
theorem faissFlatSearch_length (vecs : List Vec) (q : Vec) (k : ℕ) :
    (faissFlatSearch vecs q k).length = min k vecs.length := by
  unfold faissFlatSearch
  rw [List.length_take, List.length_insertionSort]
  unfold simCandidates
  rw [List.length_map, List.length_range]

/-- Search results carry pairwise-distinct ids. -/
theorem search_ids_nodup (db : FaceVectorDB) (q : Vec) (k : ℕ) (t : ℚ) :
    ((searchSimilarFaces db q k t).map fun r => r.id).Nodup := by
  unfold searchSimilarFaces
  split
  · simp
  · refine List.Pairwise.map _ (fun a b h => h) ?_
    refine List.pairwise_filterMap.2 ?_
    refine (faissFlatSearch_pairwise_ne db.indexVecs (normalizeVec q) _).imp ?_
    intro c d hcd r hr r' hr'
    have h1 := (mkHit_eq_some (Option.mem_def.1 hr)).1
    have h2 := (mkHit_eq_some (Option.mem_def.1 hr')).1
    rw [h1, h2]
    exact hcd

/-- Claim C4: `search_similar_faces` computes each returned similarity as the
inner product of the normalized query with a stored vector, returns only
entries meeting the threshold (never flagged expanded), orders results
descending by similarity with ties broken by ascending id, returns at most
`k` entries, and returns the empty sequence (not an error) when the index is
empty.  The flat-index hypothesis records that the model embeds the exact
(IndexFlatIP) search; IVF probing is FAISS-internal. -/
theorem search_contract (db : FaceVectorDB) (q : Vec) (k : ℕ) (t : ℚ)
    (hflat : db.indexKind = IndexKind.flat) :
    (∀ r ∈ searchSimilarFaces db q k t,
        t ≤ r.similarity ∧ r.id < db.indexVecs.length ∧
        r.similarity = dotQ (normalizeVec q) (db.indexVecs.getD r.id []) ∧
        r.isExpanded = false) ∧
    (searchSimilarFaces db q k t).Pairwise
      (fun a b => b.similarity < a.similarity ∨
        (a.similarity = b.similarity ∧ a.id < b.id)) ∧
    (searchSimilarFaces db q k t).length ≤ k ∧
    (db.indexVecs.length = 0 → searchSimilarFaces db q k t = []) := by
  refine ⟨?_, ?_, ?_, ?_⟩
  · intro r hr
    unfold searchSimilarFaces at hr
    split at hr
    · cases hr
    · obtain ⟨c, hc, hmk⟩ := List.mem_filterMap.1 hr
      obtain ⟨hid, hsim, hexp, hth, -⟩ := mkHit_eq_some hmk
      obtain ⟨hlt, hdot⟩ := mem_simCandidates.1 (mem_faissFlatSearch hc)
      refine ⟨by rw [hsim]; exact hth, by rw [hid]; exact hlt, ?_, hexp⟩
      rw [hsim, hid]
      exact hdot
  · unfold searchSimilarFaces
    split
    · exact List.Pairwise.nil
    · refine List.pairwise_filterMap.2 ?_
      have hp := (faissFlatSearch_sorted db.indexVecs (normalizeVec q)
          (min k db.indexVecs.length)).and
        (faissFlatSearch_pairwise_ne db.indexVecs (normalizeVec q)
          (min k db.indexVecs.length))
      refine hp.imp ?_
      rintro c d ⟨hrank, hne⟩ r hr r' hr'
      obtain ⟨hid, hsim, -, -, -⟩ := mkHit_eq_some (Option.mem_def.1 hr)
      obtain ⟨hid', hsim', -, -, -⟩ := mkHit_eq_some (Option.mem_def.1 hr')
      rw [hsim, hsim', hid, hid']
      unfold rankLE at hrank
      rcases hrank with h | ⟨he, hle⟩
      · exact Or.inl h
      · exact Or.inr ⟨he, Nat.lt_of_le_of_ne hle hne⟩
  · unfold searchSimilarFaces
    split
    · simp
    · refine le_trans (List.length_filterMap_le _ _) ?_
      rw [faissFlatSearch_length]
      omega
  · intro h
    unfold searchSimilarFaces
    rw [if_pos h]

/-- Witness for C4 at a concrete two-vector database. -/
theorem search_contract_witness :
    (∀ r ∈ searchSimilarFaces dbAB [1, 0] 10 (1 / 2),
        (1 / 2 : ℚ) ≤ r.similarity ∧ r.id < dbAB.indexVecs.length ∧
        r.similarity = dotQ (normalizeVec [1, 0]) (dbAB.indexVecs.getD r.id []) ∧
        r.isExpanded = false) ∧
    (searchSimilarFaces dbAB [1, 0] 10 (1 / 2)).Pairwise
      (fun a b => b.similarity < a.similarity ∨
        (a.similarity = b.similarity ∧ a.id < b.id)) ∧
    (searchSimilarFaces dbAB [1, 0] 10 (1 / 2)).length ≤ 10 ∧
    (dbAB.indexVecs.length = 0 → searchSimilarFaces dbAB [1, 0] 10 (1 / 2) = []) :=
  search_contract dbAB [1, 0] 10 (1 / 2) rfl

/-- Claim C9 (counterexample): on a database holding vectors `[1,0]` and
`[-1,0]`, a search with query `[1,0]`, threshold `0`, `k = 2 = count` returns
only id 0 — the active id 1 is omitted because its similarity `-1` fails the
`similarity >= 0` filter. -/
theorem threshold_zero_omits_negative_similarity :
    dbNeg.metadata.length = 2 ∧
    ((searchSimilarFaces dbNeg [1, 0] 2 0).map fun r => r.id) = [0] := by
  refine ⟨rfl, ?_⟩
  norm_num [searchSimilarFaces, mkHit, dbNeg, metaA, metaB, faissFlatSearch,
    simCandidates, normalizeVec, norm2, ratSqrt, Nat.sqrt, dotQ, rankLE,
    List.insertionSort, List.orderedInsert, List.filterMap_cons,
    List.getElem?_cons_zero, List.getElem?_cons_succ]

/-- Claim C9 (amended): on a flat, consistent database, a search with
threshold `0` and `k ≥ count` returns, exactly once each, precisely the
active ids whose similarity against the normalized query is nonnegative
(ids with negative similarity are filtered out). -/
theorem threshold_zero_returns_nonneg_ids_once (db : FaceVectorDB) (q : Vec)
    (k : ℕ) (hflat : db.indexKind = IndexKind.flat)
    (hcons : db.indexVecs.length = db.metadata.length)
    (hk : db.indexVecs.length ≤ k) :
    ((searchSimilarFaces db q k 0).map fun r => r.id).Nodup ∧
    ∀ i : ℕ, (i ∈ (searchSimilarFaces db q k 0).map fun r => r.id) ↔
      (i < db.indexVecs.length ∧
        0 ≤ dotQ (normalizeVec q) (db.indexVecs.getD i [])) := by
  refine ⟨search_ids_nodup db q k 0, fun i => ?_⟩
  by_cases hn : db.indexVecs.length = 0
  · constructor
    · intro h
      unfold searchSimilarFaces at h
      rw [if_pos hn] at h
      simp at h
    · rintro ⟨h1, -⟩
      omega
  · have hsortlen :
        (List.insertionSort rankLE (simCandidates (normalizeVec q) db.indexVecs)).length =
          db.indexVecs.length := by
      rw [List.length_insertionSort]
      unfold simCandidates
      rw [List.length_map, List.length_range]
    have hranked : faissFlatSearch db.indexVecs (normalizeVec q)
        (min k db.indexVecs.length) =
        List.insertionSort rankLE (simCandidates (normalizeVec q) db.indexVecs) := by
      unfold faissFlatSearch
      rw [min_eq_right hk, ← hsortlen, List.take_length]
    constructor
    · intro h
      obtain ⟨r, hr, rfl⟩ := List.mem_map.1 h
      unfold searchSimilarFaces at hr
      rw [if_neg hn] at hr
      obtain ⟨c, hc, hmk⟩ := List.mem_filterMap.1 hr
      obtain ⟨hid, hsim, -, hth, -⟩ := mkHit_eq_some hmk
      obtain ⟨hlt, hdot⟩ := mem_simCandidates.1 (mem_faissFlatSearch hc)
      refine ⟨by rw [hid]; exact hlt, ?_⟩
      rw [hid, ← hdot]
      exact hth
    · rintro ⟨h1, h2⟩
      have hm : ∃ m, db.metadata.get? i = some m :=
        ⟨_, List.get?_eq_get (hcons ▸ h1)⟩
      obtain ⟨m, hm⟩ := hm
      have hcand : ((i, dotQ (normalizeVec q) (db.indexVecs.getD i [])) : ℕ × ℚ) ∈
          simCandidates (normalizeVec q) db.indexVecs :=
        mem_simCandidates.2 ⟨h1, rfl⟩
      have hcr : ((i, dotQ (normalizeVec q) (db.indexVecs.getD i [])) : ℕ × ℚ) ∈
          faissFlatSearch db.indexVecs (normalizeVec q) (min k db.indexVecs.length) := by
        rw [hranked]
        exact (List.mem_insertionSort rankLE).2 hcand
      refine List.mem_map.2
        ⟨{ photoPath := m.photoPath, bboxX := m.bboxX, bboxY := m.bboxY
           bboxW := m.bboxW, bboxH := m.bboxH
           similarity := dotQ (normalizeVec q) (db.indexVecs.getD i [])
           id := i, isExpanded := false }, ?_, rfl⟩
      unfold searchSimilarFaces
      rw [if_neg hn]
      refine List.mem_filterMap.2
        ⟨(i, dotQ (normalizeVec q) (db.indexVecs.getD i [])), hcr, ?_⟩
      unfold mkHit
      dsimp only
      rw [hm]
      dsimp only
      rw [if_pos h2]

/-- Witness for the amended C9 at a concrete two-vector database. -/
theorem threshold_zero_returns_nonneg_ids_once_witness :
    ((searchSimilarFaces dbAB [1, 0] 2 0).map fun r => r.id).Nodup ∧
    ∀ i : ℕ, (i ∈ (searchSimilarFaces dbAB [1, 0] 2 0).map fun r => r.id) ↔
      (i < dbAB.indexVecs.length ∧
        0 ≤ dotQ (normalizeVec [1, 0]) (dbAB.indexVecs.getD i [])) :=
  threshold_zero_returns_nonneg_ids_once dbAB [1, 0] 2 rfl rfl
    (by norm_num [dbAB])

/-- Claim C6: when PRIMARY returns at least 1 and fewer than 8 results, the
EXPAND stage re-runs the search at `max(0.42, primary - 0.10)`; the merged
output is (a permutation of) PRIMARY plus exactly the EXPAND hits whose ids
are new, those flagged `expanded=true`; every PRIMARY result survives, no id
occurs twice, and a result is flagged expanded exactly when its id was not
returned by PRIMARY. -/
theorem expand_stage_contract (db : FaceVectorDB) (q : Vec) (k : ℕ) (t : ℚ)
    (hne : searchSimilarFaces db q k t ≠ [])
    (hlt : (searchSimilarFaces db q k t).length < 8) :
    (multiStageSearch db q k t).Perm
      (searchSimilarFaces db q k t ++
        ((searchSimilarFaces db q k (max (42 / 100) (t - 10 / 100))).filter
          (fun m => decide
            (m.id ∉ (searchSimilarFaces db q k t).map fun m' => m'.id))).map
          (fun m => { m with isExpanded := true })) ∧
    (∀ r ∈ searchSimilarFaces db q k t, r ∈ multiStageSearch db q k t) ∧
    ((multiStageSearch db q k t).map fun r => r.id).Nodup ∧
    (∀ r ∈ multiStageSearch db q k t,
      (r.isExpanded = true ↔
        r.id ∉ (searchSimilarFaces db q k t).map fun m' => m'.id)) := by
  have hms : multiStageSearch db q k t =
      sortByKeyDesc (fun m => m.similarity)
        (searchSimilarFaces db q k t ++
          ((searchSimilarFaces db q k (max (42 / 100) (t - 10 / 100))).filter
            (fun m => decide
              (m.id ∉ (searchSimilarFaces db q k t).map fun m' => m'.id))).map
            (fun m => { m with isExpanded := true })) := by
    unfold multiStageSearch
    simp only [if_pos hne, if_pos hlt]
  have hperm : (multiStageSearch db q k t).Perm
      (searchSimilarFaces db q k t ++
        ((searchSimilarFaces db q k (max (42 / 100) (t - 10 / 100))).filter
          (fun m => decide
            (m.id ∉ (searchSimilarFaces db q k t).map fun m' => m'.id))).map
          (fun m => { m with isExpanded := true })) := by
    rw [hms]
    exact List.perm_insertionSort _ _
  refine ⟨hperm, ?_, ?_, ?_⟩
  · intro r hr
    exact hperm.mem_iff.2 (List.mem_append_left _ hr)
  · refine ((hperm.map fun r => r.id).nodup_iff).2 ?_
    rw [List.map_append]
    have hflagids :
        ((((searchSimilarFaces db q k (max (42 / 100) (t - 10 / 100))).filter
            (fun m => decide
              (m.id ∉ (searchSimilarFaces db q k t).map fun m' => m'.id))).map
            (fun m => { m with isExpanded := true })).map fun r => r.id) =
          ((searchSimilarFaces db q k (max (42 / 100) (t - 10 / 100))).filter
            (fun m => decide
              (m.id ∉ (searchSimilarFaces db q k t).map fun m' => m'.id))).map
            fun r => r.id := by
      rw [List.map_map]
      rfl
    rw [hflagids]
    refine List.nodup_append.2 ⟨search_ids_nodup db q k t, ?_, ?_⟩
    · exact (search_ids_nodup db q k (max (42 / 100) (t - 10 / 100))).sublist
        ((List.filter_sublist _).map _)
    · intro a ha hb
      obtain ⟨m, hm, rfl⟩ := List.mem_map.1 hb
      exact (of_decide_eq_true (List.mem_filter.1 hm).2) ha
  · intro r hr
    have hrM := hperm.subset hr
    rcases List.mem_append.1 hrM with h1 | h2
    · have hexp := (mem_searchSimilarFaces h1).1
      rw [hexp]
      simp only [Bool.false_eq_true, false_iff, not_not]
      exact List.mem_map.2 ⟨r, h1, rfl⟩
    · obtain ⟨m, hm, rfl⟩ := List.mem_map.1 h2
      have hnot := of_decide_eq_true (List.mem_filter.1 hm).2
      exact iff_of_true rfl hnot

/-- Witness for C6: on the two-vector database, query `[1,0]` at primary
threshold `0.65` yields one PRIMARY hit, and the EXPAND stage at threshold
`0.55` introduces the second face flagged expanded. -/
theorem expand_stage_contract_witness :
    (multiStageSearch dbAB [1, 0] 10 (13 / 20)).Perm
      (searchSimilarFaces dbAB [1, 0] 10 (13 / 20) ++
        ((searchSimilarFaces dbAB [1, 0] 10 (max (42 / 100) (13 / 20 - 10 / 100))).filter
          (fun m => decide
            (m.id ∉ (searchSimilarFaces dbAB [1, 0] 10 (13 / 20)).map fun m' => m'.id))).map
          (fun m => { m with isExpanded := true })) ∧
    (∀ r ∈ searchSimilarFaces dbAB [1, 0] 10 (13 / 20),
      r ∈ multiStageSearch dbAB [1, 0] 10 (13 / 20)) ∧
    ((multiStageSearch dbAB [1, 0] 10 (13 / 20)).map fun r => r.id).Nodup ∧
    (∀ r ∈ multiStageSearch dbAB [1, 0] 10 (13 / 20),
      (r.isExpanded = true ↔
        r.id ∉ (searchSimilarFaces dbAB [1, 0] 10 (13 / 20)).map fun m' => m'.id)) := by
  refine expand_stage_contract dbAB [1, 0] 10 (13 / 20) ?_ ?_ <;>
    norm_num [searchSimilarFaces, mkHit, dbAB, metaA, metaB, faissFlatSearch,
      simCandidates, normalizeVec, norm2, ratSqrt, Nat.sqrt, dotQ, rankLE,
      List.insertionSort, List.orderedInsert, List.filterMap_cons,
      List.getElem?_cons_zero, List.getElem?_cons_succ]

/-- The stable descending sort is a permutation of its input. -/
theorem sortByKeyDesc_perm {α β : Type} [LinearOrder β] (key : α → β)
    (l : List α) : (sortByKeyDesc key l).Perm l :=
  List.perm_insertionSort _ l

/-- The stable descending sort is sorted: keys are nonincreasing. -/
theorem sortByKeyDesc_sorted {α β : Type} [LinearOrder β] (key : α → β)
    (l : List α) :
    (sortByKeyDesc key l).Pairwise fun a b => key b ≤ key a := by
  haveI : IsTotal α fun x y => key y ≤ key x := ⟨fun a b => le_total (key b) (key a)⟩
  haveI : IsTrans α fun x y => key y ≤ key x := ⟨fun a b c h1 h2 => le_trans h2 h1⟩
  exact List.sorted_insertionSort _ l

/-- Inserting into the descending order passes only strictly greater keys, so
the elements at any fixed key value are preserved in order. -/
theorem filter_key_orderedInsert {α β : Type} [LinearOrder β] (key : α → β)
    (c : β) (x : α) (l : List α) :
    (List.orderedInsert (fun u v => key v ≤ key u) x l).filter
        (fun a => decide (key a = c)) =
      if key x = c then
        x :: l.filter (fun a => decide (key a = c))
      else l.filter (fun a => decide (key a = c)) := by
  induction l with
  | nil =>
    by_cases hx : key x = c <;>
      simp [List.orderedInsert, List.filter_cons, hx]
  | cons b bs ih =>
    by_cases hxb : key b ≤ key x
    · rw [List.orderedInsert, if_pos hxb]
      by_cases hx : key x = c <;> simp [List.filter_cons, hx]
    · rw [List.orderedInsert, if_neg hxb]
      have hlt : key x < key b := lt_of_not_le hxb
      by_cases hx : key x = c
      · have hb : ¬ key b = c := by
          rw [← hx]
          exact ne_of_gt hlt
        rw [if_pos hx]
        simp only [List.filter_cons, hb, decide_eq_true_eq, if_neg hb]
        rw [ih, if_pos hx]
        simp [List.filter_cons, hb]
      · rw [if_neg hx]
        by_cases hb : key b = c <;>
          simp [List.filter_cons, hb, ih, if_neg hx]

/-- Stability of the descending sort: the subsequence of elements with any
fixed key value is unchanged (Python's `list.sort` is stable). -/
theorem filter_key_sortByKeyDesc {α β : Type} [LinearOrder β] (key : α → β)
    (c : β) (l : List α) :
    (sortByKeyDesc key l).filter (fun a => decide (key a = c)) =
      l.filter (fun a => decide (key a = c)) := by
  induction l with
  | nil => rfl
  | cons a l ih =>
    show ((List.orderedInsert _ a (List.insertionSort _ l)).filter _) = _
    rw [filter_key_orderedInsert key c a (List.insertionSort _ l)]
    by_cases ha : key a = c
    · rw [if_pos ha]
      rw [show (List.insertionSort (fun u v => key v ≤ key u) l).filter
            (fun a => decide (key a = c)) =
          l.filter (fun a => decide (key a = c)) from ih]
      simp [List.filter_cons, ha]
    · rw [if_neg ha]
      rw [show (List.insertionSort (fun u v => key v ≤ key u) l).filter
            (fun a => decide (key a = c)) =
          l.filter (fun a => decide (key a = c)) from ih]
      simp [List.filter_cons, ha]

/-- Looking up the key just inserted into the photo dict returns the old faces
(empty when absent) with the new face appended. -/
theorem addFaceToDict_lookup_self (acc : List (String × List FaceEntry))
    (p : String) (f : FaceEntry) :
    (addFaceToDict acc p f).lookup p =
      some ((acc.lookup p).getD [] ++ [f]) := by
  induction acc with
  | nil => simp [addFaceToDict, List.lookup]
  | cons e es ih =>
    by_cases h : e.1 = p
    · rw [addFaceToDict, if_pos h]
      have hb : (p == e.1) = true := beq_iff_eq.2 h.symm
      simp [List.lookup, hb]
    · rw [addFaceToDict, if_neg h]
      have hb : (p == e.1) = false := beq_eq_false_iff_ne.2 (Ne.symm h)
      simp [List.lookup, hb, ih]

/-- Updating the photo dict at one key leaves every other key's entry
unchanged. -/
theorem addFaceToDict_lookup_other (acc : List (String × List FaceEntry))
    (p q : String) (f : FaceEntry) (hpq : q ≠ p) :
    (addFaceToDict acc p f).lookup q = acc.lookup q := by
  induction acc with
  | nil =>
    have hb : (q == p) = false := beq_eq_false_iff_ne.2 hpq
    simp [addFaceToDict, List.lookup, hb]
  | cons e es ih =>
    by_cases h : e.1 = p
    · rw [addFaceToDict, if_pos h]
      have hb : (q == e.1) = false := beq_eq_false_iff_ne.2 (h ▸ hpq)
      simp [List.lookup, hb]
    · rw [addFaceToDict, if_neg h]
      by_cases hq : q = e.1
      · have hb : (q == e.1) = true := beq_iff_eq.2 hq
        simp [List.lookup, hb]
      · have hb : (q == e.1) = false := beq_eq_false_iff_ne.2 hq
        simp [List.lookup, hb, ih]

/-- The keys of the photo dict after an insertion: unchanged when the key was
present, appended at the end otherwise. -/
theorem addFaceToDict_map_fst (acc : List (String × List FaceEntry))
    (p : String) (f : FaceEntry) :
    (addFaceToDict acc p f).map Prod.fst =
      if p ∈ acc.map Prod.fst then acc.map Prod.fst
      else acc.map Prod.fst ++ [p] := by
  induction acc with
  | nil => simp [addFaceToDict]
  | cons e es ih =>
    by_cases h : e.1 = p
    · rw [addFaceToDict, if_pos h]
      simp [h]
    · rw [addFaceToDict, if_neg h]
      by_cases hp : p ∈ es.map Prod.fst
      · have : p ∈ (e :: es).map Prod.fst := by simp [hp]
        simp [ih, hp, this]
      · have hne : ¬ p = e.1 := fun hep => h hep.symm
        have : ¬ p ∈ (e :: es).map Prod.fst := by simp [hp, hne]
        simp [ih, hp, this, hne]

/-- Folding hits into the photo dict appends, at every key, that key's face
entries in hit order. -/
theorem buildPhotoDict_lookup_aux (hits : List SearchResult) :
    ∀ (acc : List (String × List FaceEntry)) (q : String),
    ((hits.foldl (fun acc m => addFaceToDict acc m.photoPath (faceEntry m))
        acc).lookup q).getD [] =
      (acc.lookup q).getD [] ++
        (hits.filter fun m => decide (m.photoPath = q)).map faceEntry := by
  induction hits with
  | nil =>
    intro acc q
    simp
  | cons m ms ih =>
    intro acc q
    rw [List.foldl_cons, ih]
    by_cases h : m.photoPath = q
    · subst h
      rw [addFaceToDict_lookup_self]
      simp [List.filter_cons]
    · rw [addFaceToDict_lookup_other acc m.photoPath q (faceEntry m)
        (fun hq => h hq.symm)]
      simp [List.filter_cons, h]

/-- The photo-dict keys are the photo paths in first-occurrence order. -/
theorem buildPhotoDict_keys_aux (hits : List SearchResult) :
    ∀ acc,
    ((hits.foldl (fun acc m => addFaceToDict acc m.photoPath (faceEntry m))
        acc).map Prod.fst) =
      (hits.map fun m => m.photoPath).foldl
        (fun ks p => if p ∈ ks then ks else ks ++ [p]) (acc.map Prod.fst) := by
  induction hits with
  | nil => intro acc; rfl
  | cons m ms ih =>
    intro acc
    rw [List.foldl_cons, List.map_cons, List.foldl_cons, ih,
      addFaceToDict_map_fst]

/-- The photo-dict keys equal the first occurrences of the hit photos. -/
theorem buildPhotoDict_map_fst (hits : List SearchResult) :
    (buildPhotoDict hits).map Prod.fst =
      firstOccurrences (hits.map fun m => m.photoPath) := by
  unfold buildPhotoDict firstOccurrences
  exact buildPhotoDict_keys_aux hits []

/-- The append-if-absent key fold preserves distinctness. -/
theorem foldl_addKey_nodup (ps : List String) :
    ∀ ks : List String, ks.Nodup →
      (ps.foldl (fun ks p => if p ∈ ks then ks else ks ++ [p]) ks).Nodup := by
  induction ps with
  | nil => intro ks h; exact h
  | cons p ps ih =>
    intro ks h
    rw [List.foldl_cons]
    by_cases hp : p ∈ ks
    · rw [if_pos hp]
      exact ih ks h
    · rw [if_neg hp]
      refine ih _ (List.nodup_append.2 ⟨h, List.nodup_singleton p, ?_⟩)
      intro a ha hmem
      rw [List.mem_singleton.1 hmem] at ha
      exact hp ha

/-- First-occurrence keys are distinct. -/
theorem firstOccurrences_nodup (ps : List String) :
    (firstOccurrences ps).Nodup :=
  foldl_addKey_nodup ps [] List.nodup_nil

/-- In an association list with distinct keys, looking up a member's key
returns its value. -/
theorem lookup_eq_of_mem {β : Type} (l : List (String × β))
    (hnd : (l.map Prod.fst).Nodup) (e : String × β) (he : e ∈ l) :
    l.lookup e.1 = some e.2 := by
  induction l with
  | nil => cases he
  | cons x xs ih =>
    rw [List.map_cons] at hnd
    have hnd' := List.nodup_cons.1 hnd
    rcases List.mem_cons.1 he with rfl | hxs
    · simp [List.lookup]
    · have hx : x.1 ≠ e.1 := by
        intro heq
        exact hnd'.1 (heq ▸ List.mem_map.2 ⟨e, hxs, rfl⟩)
      have hb : (e.1 == x.1) = false := beq_eq_false_iff_ne.2 (Ne.symm hx)
      simp only [List.lookup, hb]
      exact ih hnd'.2 hxs

/-- Claim C7 (counterexample): for the hit list
`[(b.jpg, -1/2), (a.jpg, -1/2)]` the aggregator emits `b.jpg` before `a.jpg`
(stable insertion order, not ascending photo id on the tie) and reports
`max_similarity = 0` for both groups (the running max starts at `0.0`), not
the actual maximum hit similarity `-1/2`. -/
theorem group_tiebreak_and_max_floor_cex :
    ((groupMatchesByPhoto [hitB, hitA]).map
        fun g => (g.photoPath, g.maxSimilarity, g.avgSimilarity)) =
      [("b.jpg", 0, -(1 / 2)), ("a.jpg", 0, -(1 / 2))] := by
  norm_num [groupMatchesByPhoto, buildPhotoDict, addFaceToDict, faceEntry,
    mkGroup, runningMax, sortByKeyDesc, List.insertionSort, List.orderedInsert,
    hitA, hitB]

/-- Claim C7 (amended): the aggregator groups hits by owning photo (one group
per distinct photo, in hit order), computes per group `face_count` as the
number of hits, `avg_similarity` as their mean, and `max_similarity` as the
running maximum of the similarities started at `0.0`, and returns the groups
sorted descending by `max_similarity` with ties keeping the order in which
each photo first appears in the hit list (stable sort), the pre-sort group
list being keyed by first occurrence. -/
theorem groupMatchesByPhoto_contract (hits : List SearchResult) :
    (∀ g ∈ groupMatchesByPhoto hits,
        g.facesFound =
          (hits.filter fun m => decide (m.photoPath = g.photoPath)).map faceEntry ∧
        g.faceCount = g.facesFound.length ∧
        g.maxSimilarity = runningMax g.facesFound ∧
        g.avgSimilarity =
          ((g.facesFound.map fun f => f.2).sum) / ((g.facesFound.length : ℚ))) ∧
    ((groupMatchesByPhoto hits).map fun g => g.photoPath).Perm
      (firstOccurrences (hits.map fun m => m.photoPath)) ∧
    (groupMatchesByPhoto hits).Pairwise
      (fun a b => b.maxSimilarity ≤ a.maxSimilarity) ∧
    (∀ c : ℚ,
      (groupMatchesByPhoto hits).filter (fun g => decide (g.maxSimilarity = c)) =
        ((buildPhotoDict hits).map mkGroup).filter
          (fun g => decide (g.maxSimilarity = c))) ∧
    ((buildPhotoDict hits).map mkGroup).map (fun g => g.photoPath) =
      firstOccurrences (hits.map fun m => m.photoPath) := by
  have hunf : groupMatchesByPhoto hits =
      sortByKeyDesc (fun g : PhotoGroup => g.maxSimilarity)
        ((buildPhotoDict hits).map mkGroup) := rfl
  have hkeys : ((buildPhotoDict hits).map mkGroup).map (fun g => g.photoPath) =
      firstOccurrences (hits.map fun m => m.photoPath) := by
    rw [List.map_map, ← buildPhotoDict_map_fst hits]
    rfl
  have hlookup : ∀ q : String, ((buildPhotoDict hits).lookup q).getD [] =
      (hits.filter fun m => decide (m.photoPath = q)).map faceEntry := by
    intro q
    have h := buildPhotoDict_lookup_aux hits [] q
    simpa using h
  refine ⟨?_, ?_, ?_, ?_, hkeys⟩
  · intro g hg
    rw [hunf] at hg
    have hg' : g ∈ (buildPhotoDict hits).map mkGroup :=
      (sortByKeyDesc_perm (fun g : PhotoGroup => g.maxSimilarity) _).subset hg
    obtain ⟨e, he, rfl⟩ := List.mem_map.1 hg'
    refine ⟨?_, rfl, rfl, rfl⟩
    have hnd : ((buildPhotoDict hits).map Prod.fst).Nodup := by
      rw [buildPhotoDict_map_fst]
      exact firstOccurrences_nodup _
    have hB := hlookup e.1
    rw [lookup_eq_of_mem _ hnd e he] at hB
    simpa using hB
  · rw [hunf]
    have hmm := (sortByKeyDesc_perm (fun g : PhotoGroup => g.maxSimilarity)
      ((buildPhotoDict hits).map mkGroup)).map fun g : PhotoGroup => g.photoPath
    rw [hkeys] at hmm
    exact hmm
  · rw [hunf]
    exact sortByKeyDesc_sorted (fun g : PhotoGroup => g.maxSimilarity) _
  · intro c
    rw [hunf]
    exact filter_key_sortByKeyDesc (fun g : PhotoGroup => g.maxSimilarity) c _
